import Mathlib

/-!
Shallow embedding of `floris/tools/optimization/yaw_optimization/
yaw_optimizer_wind_rose_mpi4py.py`: the class
`YawOptimizationWindRoseParallel` and its `optimize` method, which maps a
per-condition yaw optimization over a wind rose using `mpi4py.futures`.

Python floats carried through unchanged are modelled as `Rat` (the code never
computes with them, it only converts and forwards them); exceptions are
modelled with `Except`; the pandas DataFrame is modelled as a list of
(index, row) pairs, matching its use here as a plain ordered container.
-/

set_option autoImplicit false

namespace WindRoseMpi

/-- Python exceptions that `optimize` can raise or propagate. -/
inductive PyError : Type where
  | importError (msg : String)
  | typeError (msg : String)
  | workerError (msg : String)
deriving Repr, DecidableEq

/-- Propositional equality of `Except` values is decidable when both
component types have decidable equality. -/
instance {e a : Type} [DecidableEq e] [DecidableEq a] : DecidableEq (Except e a)
  | .error x, .error y =>
      if h : x = y then isTrue (by rw [h])
      else isFalse (fun hc => h (Except.error.inj hc))
  | .error _, .ok _ => isFalse (fun hc => Except.noConfusion hc)
  | .ok _, .error _ => isFalse (fun hc => Except.noConfusion hc)
  | .ok x, .ok y =>
      if h : x = y then isTrue (by rw [h])
      else isFalse (fun hc => h (Except.ok.inj hc))

/-- One row of the result DataFrame, per the columns documented in the
`optimize` docstring: ws, wd, ti (absent when no TI is carried), the three
baseline power columns (null when baseline power was not computed), and the
optimized power and yaw columns. -/
structure CaseRow : Type where
  ws : Rat
  wd : Rat
  ti : Option Rat
  power_baseline : Option Rat
  power_baseline_weighted : Option Rat
  turbine_power_baseline : Option (List Rat)
  power_opt : Rat
  power_opt_weighted : Rat
  turbine_power_opt : List Rat
  yaw_angles : List Rat
deriving Repr, DecidableEq, Inhabited

/-- A pandas DataFrame of result rows: an ordered list of (index, row)
pairs. `DataFrame.append` keeps the appended frame's own indices;
`reset_index(drop=True)` renumbers them. -/
abbrev DFrame : Type := List (Nat × CaseRow)

/-- Embedding of `df.reset_index(drop=True)`: the rows keep their order and
their indices become 0, 1, 2, .... -/
def reset_index_drop (df : DFrame) : DFrame :=
  (List.range df.length).zip (df.map Prod.snd)

/-- Output of the external single-condition yaw optimizer wrapped by
`yaw_optimization_obj` (out of scope per the spec): the power figures, the
optimal yaw angles, and the pandas index the one-row frame carries. -/
structure SolveOutput : Type where
  power_baseline : Rat
  power_baseline_weighted : Rat
  turbine_power_baseline : List Rat
  power_opt : Rat
  power_opt_weighted : Rat
  turbine_power_opt : List Rat
  yaw_angles : List Rat
  rowIndex : Nat
deriving Repr, DecidableEq, Inhabited

/-- The external collaborator performing one case's wake simulation and yaw
optimization; it may raise (any exception inside a worker task). -/
structure ExternalSolver : Type where
  solve : Rat → Rat → Rat → Except String SolveOutput

/-- The result row built for one ambient condition: ws, wd and ti are the
inputs of the case, the baseline columns are non-null exactly when
`calc_init_power` was set, the remaining columns come from the solver. -/
def mkRow (calcInit : Bool) (wd ws ti : Rat) (out : SolveOutput) : CaseRow :=
  { ws := ws
    wd := wd
    ti := some ti
    power_baseline := if calcInit then some out.power_baseline else none
    power_baseline_weighted := if calcInit then some out.power_baseline_weighted else none
    turbine_power_baseline := if calcInit then some out.turbine_power_baseline else none
    power_opt := out.power_opt
    power_opt_weighted := out.power_opt_weighted
    turbine_power_opt := out.turbine_power_opt
    yaw_angles := out.yaw_angles }

/-- Modelled from the spec: `_optimize_one_case` lives in the serial base
class `yaw_optimizer_wind_rose_serial.py`, which is not part of this slice.
Per section 3 of the spec it produces a one-row frame whose ws/wd/ti fields
are the case's inputs, with baseline power columns filled only when the
wrapped optimizer's `calc_init_power` flag is set; any exception inside the
case's optimization propagates. -/
def optimize_one_case (solver : ExternalSolver) (calcInit : Bool)
    (wd ws ti : Rat) : Except PyError DFrame :=
  match solver.solve wd ws ti with
  | .error msg => .error (.workerError msg)
  | .ok out => .ok [(out.rowIndex, mkRow calcInit wd ws ti out)]

/-- A numpy float array as produced by `np.array(x, dtype=float)` at the
`executor.map` call site: a list input gives a 1-d array; `None` gives the
0-dimensional array `array(nan)`. -/
inductive NpFloatArr : Type where
  | oneDim (xs : List Rat)
  | zeroDim
deriving Repr, DecidableEq

/-- `np.array(x, dtype=float)` for `x` the stored `ti_array` (a list of
floats, or `None` when the constructor was given none). -/
def npArrayFloat : Option (List Rat) → NpFloatArr
  | some xs => .oneDim xs
  | none => .zeroDim

/-- Iterating a numpy array (as `executor.map` does when zipping its input
iterables): a 1-d array yields its elements; a 0-d array raises
`TypeError: iteration over a 0-d array`. -/
def NpFloatArr.iterate : NpFloatArr → Except PyError (List Rat)
  | .oneDim xs => .ok xs
  | .zeroDim => .error (.typeError "iteration over a 0-d array")

/-- The state of the constructed `YawOptimizationWindRoseParallel` object.
The constructor (delegating to the serial base class, modelled from the
spec's construction contract) stores the caller's arrays and flags
unchanged. `calc_init_power` is the wrapped optimizer's
`self.yaw_opt.calc_init_power` flag, the only piece of the wrapped
optimizer's mutable configuration this module touches. -/
structure YawOptimizationWindRoseParallel : Type where
  calc_init_power : Bool
  wd_array : List Rat
  ws_array : List Rat
  ti_array : Option (List Rat)
  minimum_ws : Rat := 0
  maximum_ws : Rat := 25
  verbose : Bool := true

/-- The ambient execution environment of one `optimize()` call: whether
`mpi4py.futures` is importable, the external per-case solver the workers
run, and the order in which the pool's workers happen to complete the
submitted tasks (a list of task indices). -/
structure Env : Type where
  mpi4pyAvailable : Bool
  solver : ExternalSolver
  sched : List Nat

/-- Everything observable about one `optimize()` call: lines printed to
stdout, the wrapped optimizer's flag after the call, how many per-case
solver tasks were dispatched, whether the worker pool was acquired and
whether it was released, and the returned table or raised exception. -/
structure RunTrace : Type where
  stdout : List String
  final_calc_init_power : Bool
  solverCalls : Nat
  poolAcquired : Bool
  poolReleased : Bool
  result : Except PyError DFrame
deriving Repr

/-- The `ImportError` message raised when `mpi4py.futures` is missing. -/
def mpiErrMsg : String :=
  "It appears you do not have mpi4py installed. "
    ++ "Please refer to https://mpi4py.readthedocs.io/ for "
    ++ "guidance on how to properly install the module."

/-- The separator line printed around the progress banner: 53 copies of
the equals sign. -/
def sepLine : String := String.mk (List.replicate 53 '=')

/-- The three-banner progress output printed after a successful import,
with the condition count (Python `print` with two arguments inserts a
space between them). -/
def bannerLines (n : Nat) : List String :=
  [sepLine,
   "Optimizing wake redirection control in parallel using mpi4py...",
   "Number of wind conditions to optimize = " ++ " " ++ toString n,
   sepLine]

/-- `executor.map` runs the submitted tasks concurrently: the pool computes
task results in worker-completion order, each result landing in the slot of
its task index. Slots of tasks the schedule never completes stay empty. -/
def scatter {α : Type} (n : Nat) (f : Nat → α) (sched : List Nat) :
    List (Option α) :=
  sched.foldl (fun acc i => acc.set i (some (f i))) (List.replicate n none)

/-- The `for df_one_case in executor.map(...)` loop: results are yielded in
task-index order; retrieving a task that raised re-raises its exception,
discarding the frame accumulated so far; otherwise the one-case frame is
appended (`df_opt = df_opt.append(df_one_case)`). An unfilled slot cannot
occur when the schedule completes every task. -/
def collectLoop : List (Option (Except PyError DFrame)) → DFrame →
    Except PyError DFrame
  | [], acc => .ok acc
  | none :: _, _ => .error (.typeError "result not available")
  | some (.error e) :: _, _ => .error e
  | some (.ok d) :: rest, acc => collectLoop rest (acc ++ d)

/-- The coordinate-wise zip of the three per-condition arrays that
`executor.map` performs on its input iterables (stopping at the shortest). -/
def taskInputs (wds wss tis : List Rat) : List (Rat × Rat × Rat) :=
  wds.zip (wss.zip tis)

/-- Task number `i` of the map: `_optimize_one_case(wd_i, ws_i, ti_i)`. -/
def caseTask (solver : ExternalSolver) (calcInit : Bool)
    (ts : List (Rat × Rat × Rat)) (i : Nat) : Except PyError DFrame :=
  let t := ts.getD i (0, 0, 0)
  optimize_one_case solver calcInit t.1 t.2.1 t.2.2

/-- Embedding of `YawOptimizationWindRoseParallel.optimize`:
try to import `mpi4py.futures` (raising `ImportError` with guidance if it
is missing); print the progress banner; force `self.yaw_opt.calc_init_power
= True`; inside `with MPIPoolExecutor() as executor:` map
`_optimize_one_case` over `np.array(self.wd_array, dtype=float)`,
`np.array(self.ws_array, dtype=float)` and
`np.array(self.ti_array, dtype=float)`, appending each yielded one-case
frame; the `with` statement releases the pool on every exit from its body;
finally `reset_index(drop=True)` and return. -/
def optimize (env : Env) (self : YawOptimizationWindRoseParallel) :
    RunTrace :=
  if env.mpi4pyAvailable then
    let out := bannerLines self.wd_array.length
    let calcInit := true
    match (npArrayFloat self.ti_array).iterate with
    | .error e =>
        { stdout := out
          final_calc_init_power := calcInit
          solverCalls := 0
          poolAcquired := true
          poolReleased := true
          result := .error e }
    | .ok tis =>
        let ts := taskInputs self.wd_array self.ws_array tis
        let slots := scatter ts.length (caseTask env.solver calcInit ts) env.sched
        { stdout := out
          final_calc_init_power := calcInit
          solverCalls := ts.length
          poolAcquired := true
          poolReleased := true
          result := (collectLoop slots []).map reset_index_drop }
  else
    { stdout := []
      final_calc_init_power := self.calc_init_power
      solverCalls := 0
      poolAcquired := false
      poolReleased := false
      result := .error (.importError mpiErrMsg) }

/-- Task `i` of the map, with the triple unpacked: the `i`-th entries of
the three input arrays (coordinate-wise zip). -/
def nthTask (wds wss tis : List Rat) (i : Nat) : Rat × Rat × Rat :=
  (taskInputs wds wss tis).getD i (0, 0, 0)

/-- Sequential collection of per-task outcomes in task order: the first
exception aborts, otherwise the one-case frames are concatenated. -/
def seqCollect : List (Except PyError DFrame) → Except PyError DFrame
  | [] => .ok []
  | .error e :: _ => .error e
  | .ok d :: rest => (seqCollect rest).map (fun acc => d ++ acc)

lemma foldl_set_length {α : Type} (f : Nat → α) (sched : List Nat)
    (acc : List (Option α)) :
    (sched.foldl (fun a i => a.set i (some (f i))) acc).length = acc.length := by
  induction sched generalizing acc with
  | nil => rfl
  | cons i rest ih => rw [List.foldl_cons, ih, List.length_set]

lemma foldl_set_getElem? {α : Type} (f : Nat → α) (sched : List Nat)
    (acc : List (Option α)) (j : Nat) :
    (sched.foldl (fun a i => a.set i (some (f i))) acc)[j]? =
      if j ∈ sched ∧ j < acc.length then some (some (f j)) else acc[j]? := by
  induction sched generalizing acc with
  | nil => simp
  | cons i rest ih =>
      rw [List.foldl_cons, ih, List.length_set, List.getElem?_set]
      by_cases hij : i = j
      · subst hij
        by_cases hl : i < acc.length
        · simp [hl, List.mem_cons]
        · have hnone : acc[i]? = none := List.getElem?_eq_none (Nat.le_of_not_lt hl)
          simp [hl, hnone, List.mem_cons]
      · have hij2 : ¬ j = i := fun h => hij h.symm
        by_cases hr : j ∈ rest
        · by_cases hl : j < acc.length
          · simp [hr, hl, hij, List.mem_cons]
          · simp [hr, hl, hij, List.mem_cons]
        · simp [hr, hij, hij2, List.mem_cons]

lemma scatter_length {α : Type} (n : Nat) (f : Nat → α) (sched : List Nat) :
    (scatter n f sched).length = n := by
  rw [scatter, foldl_set_length, List.length_replicate]

lemma scatter_eq_map {α : Type} (n : Nat) (f : Nat → α) (sched : List Nat)
    (hcov : ∀ j, j < n → j ∈ sched) :
    scatter n f sched = (List.range n).map (fun j => some (f j)) := by
  apply List.ext_getElem?
  intro j
  rw [scatter, foldl_set_getElem?, List.length_replicate, List.getElem?_map]
  by_cases hj : j < n
  · rw [if_pos ⟨hcov j hj, hj⟩, List.getElem?_range hj]
    rfl
  · rw [if_neg (fun h => hj h.2), List.getElem?_replicate, if_neg hj,
      List.getElem?_eq_none (by simpa using Nat.le_of_not_lt hj)]
    rfl

lemma collectLoop_map_some (l : List (Except PyError DFrame)) (acc : DFrame) :
    collectLoop (l.map some) acc = (seqCollect l).map (fun d => acc ++ d) := by
  induction l generalizing acc with
  | nil => simp [collectLoop, seqCollect, Except.map]
  | cons x rest ih =>
      cases x with
      | error e => simp [collectLoop, seqCollect, Except.map]
      | ok d =>
          rw [List.map_cons]
          show collectLoop (rest.map some) (acc ++ d) = _
          rw [ih, seqCollect]
          cases hr : seqCollect rest <;> simp [Except.map, List.append_assoc]

lemma seqCollect_ok (l : List (Except PyError DFrame)) (d : DFrame)
    (h : seqCollect l = .ok d) :
    ∃ L : List DFrame, l = L.map Except.ok ∧ d = L.flatten := by
  induction l generalizing d with
  | nil =>
      refine ⟨[], rfl, ?_⟩
      simpa [seqCollect] using h.symm
  | cons x rest ih =>
      cases x with
      | error e => simp [seqCollect] at h
      | ok d1 =>
          rw [seqCollect] at h
          cases hr : seqCollect rest with
          | error e => rw [hr] at h; simp [Except.map] at h
          | ok d2 =>
              rw [hr] at h
              simp only [Except.map] at h
              obtain ⟨L, hL, hD⟩ := ih d2 hr
              refine ⟨d1 :: L, by rw [hL, List.map_cons], ?_⟩
              rw [List.flatten_cons, ← hD]
              exact (Except.ok.inj h).symm

lemma seqCollect_first_error (l : List (Except PyError DFrame)) (j : Nat)
    (e : PyError) (hj : l[j]? = some (.error e))
    (hpre : ∀ i, i < j → ∃ d, l[i]? = some (.ok d)) :
    seqCollect l = .error e := by
  induction l generalizing j with
  | nil => simp at hj
  | cons x rest ih =>
      cases j with
      | zero =>
          simp only [List.getElem?_cons_zero, Option.some.injEq] at hj
          rw [hj, seqCollect]
      | succ k =>
          obtain ⟨d, hd⟩ := hpre 0 (Nat.succ_pos k)
          simp only [List.getElem?_cons_zero, Option.some.injEq] at hd
          rw [hd, seqCollect,
            ih k (by simpa using hj)
              (fun i hik => by simpa using hpre (i + 1) (Nat.succ_lt_succ hik))]
          rfl

lemma flatten_singletons (L : List DFrame) (g : Nat → Nat × CaseRow)
    (h : ∀ i, (hi : i < L.length) → L[i] = [g i]) :
    L.flatten = (List.range L.length).map g := by
  induction L generalizing g with
  | nil => rfl
  | cons x rest ih =>
      have hx : x = [g 0] := h 0 (by simp)
      have hrest : rest.flatten = (List.range rest.length).map (fun i => g (i + 1)) := by
        refine ih (fun i => g (i + 1)) (fun i hi => ?_)
        simpa using h (i + 1) (by simpa using Nat.succ_lt_succ hi)
      rw [List.flatten_cons, hx, hrest, List.length_cons, List.range_succ_eq_map,
        List.map_cons, List.map_map]
      rfl

lemma reset_index_drop_map_range (n : Nat) (g : Nat → Nat × CaseRow) :
    reset_index_drop ((List.range n).map g) =
      (List.range n).map (fun i => (i, (g i).2)) :=
  calc reset_index_drop ((List.range n).map g)
      = (List.range n).zip (((List.range n).map g).map Prod.snd) := by
        rw [reset_index_drop, List.length_map, List.length_range]
    _ = ((List.range n).map id).zip ((List.range n).map (fun i => (g i).2)) := by
        rw [List.map_id, List.map_map]
        rfl
    _ = (List.range n).map (fun i => (id i, (g i).2)) :=
        List.zip_map' id (fun i => (g i).2) (List.range n)
    _ = (List.range n).map (fun i => (i, (g i).2)) := rfl

lemma optimize_one_case_ok (solver : ExternalSolver) (c : Bool)
    (wd ws ti : Rat) (d : DFrame)
    (h : optimize_one_case solver c wd ws ti = .ok d) :
    ∃ out, solver.solve wd ws ti = .ok out ∧
      d = [(out.rowIndex, mkRow c wd ws ti out)] := by
  rw [optimize_one_case] at h
  cases hs : solver.solve wd ws ti with
  | error msg => rw [hs] at h; cases h
  | ok out =>
      rw [hs] at h
      exact ⟨out, rfl, (Except.ok.inj h).symm⟩

lemma taskInputs_length (wds wss tis : List Rat)
    (h1 : wss.length = wds.length) (h2 : tis.length = wds.length) :
    (taskInputs wds wss tis).length = wds.length := by
  simp [taskInputs, List.length_zip, h1, h2]

lemma nthTask_eq (wds wss tis : List Rat) (i : Nat)
    (h1 : wss.length = wds.length) (h2 : tis.length = wds.length)
    (hi : i < wds.length) :
    nthTask wds wss tis i = (wds.getD i 0, wss.getD i 0, tis.getD i 0) := by
  have hws : i < wss.length := by rw [h1]; exact hi
  have hts : i < tis.length := by rw [h2]; exact hi
  have ht : i < (taskInputs wds wss tis).length := by
    rw [taskInputs_length wds wss tis h1 h2]; exact hi
  rw [nthTask, List.getD_eq_getElem?_getD, List.getElem?_eq_getElem ht,
    List.getD_eq_getElem?_getD wds, List.getD_eq_getElem?_getD wss,
    List.getD_eq_getElem?_getD tis, List.getElem?_eq_getElem hi,
    List.getElem?_eq_getElem hws, List.getElem?_eq_getElem hts]
  simp [taskInputs, List.getElem_zip]

/-- Characterization of a successful run: when `mpi4py` imports, a TI array
is present, and the schedule completes every submitted task, a returned
table has one row per task, the `i`-th row indexed `i` and built by
`mkRow` from the `i`-th input triple and the solver's output on it. -/
lemma optimize_ok_rows (env : Env) (self : YawOptimizationWindRoseParallel)
    (tis : List Rat) (rows : DFrame)
    (hmpi : env.mpi4pyAvailable = true)
    (hti : self.ti_array = some tis)
    (hcov : ∀ j, j < (taskInputs self.wd_array self.ws_array tis).length →
      j ∈ env.sched)
    (hok : (optimize env self).result = .ok rows) :
    rows.length = (taskInputs self.wd_array self.ws_array tis).length ∧
    ∀ i, (hi : i < rows.length) → ∃ out : SolveOutput,
      env.solver.solve (nthTask self.wd_array self.ws_array tis i).1
          (nthTask self.wd_array self.ws_array tis i).2.1
          (nthTask self.wd_array self.ws_array tis i).2.2 = .ok out ∧
      rows[i] = (i, mkRow true (nthTask self.wd_array self.ws_array tis i).1
          (nthTask self.wd_array self.ws_array tis i).2.1
          (nthTask self.wd_array self.ws_array tis i).2.2 out) := by
  simp only [optimize, hmpi, hti, npArrayFloat, NpFloatArr.iterate, if_true] at hok
  set ts := taskInputs self.wd_array self.ws_array tis with hts
  set F := caseTask env.solver true ts with hF
  set l := (List.range ts.length).map F with hl
  have hmap : (List.range ts.length).map (fun j => some (F j)) = l.map some := by
    rw [hl, List.map_map]
    rfl
  rw [scatter_eq_map _ _ _ hcov, hmap, collectLoop_map_some] at hok
  cases hseq : seqCollect l with
  | error e => rw [hseq] at hok; simp [Except.map] at hok
  | ok D =>
      rw [hseq] at hok
      simp only [Except.map, List.nil_append] at hok
      have hrowsD : rows = reset_index_drop D := (Except.ok.inj hok).symm
      obtain ⟨L, hL, hD⟩ := seqCollect_ok l D hseq
      have hLlen : L.length = ts.length := by
        have h := congrArg List.length hL
        rw [hl] at h
        simpa using h.symm
      have htask : ∀ i, (hi : i < L.length) → F i = Except.ok (L[i]) := by
        intro i hi
        have hiN : i < ts.length := hLlen ▸ hi
        have h1 : l[i]? = some (F i) := by
          rw [hl, List.getElem?_map, List.getElem?_range hiN]
          rfl
        have h2 : l[i]? = some (Except.ok (L[i])) := by
          rw [hL, List.getElem?_map, List.getElem?_eq_getElem hi]
          rfl
        exact Option.some.inj (h1.symm.trans h2)
      have hsolve : ∀ i, (hi : i < L.length) → ∃ out,
          env.solver.solve (nthTask self.wd_array self.ws_array tis i).1
            (nthTask self.wd_array self.ws_array tis i).2.1
            (nthTask self.wd_array self.ws_array tis i).2.2 = .ok out ∧
          L[i] = [(out.rowIndex, mkRow true
            (nthTask self.wd_array self.ws_array tis i).1
            (nthTask self.wd_array self.ws_array tis i).2.1
            (nthTask self.wd_array self.ws_array tis i).2.2 out)] := by
        intro i hi
        have h2 : optimize_one_case env.solver true (ts.getD i (0, 0, 0)).1
            (ts.getD i (0, 0, 0)).2.1 (ts.getD i (0, 0, 0)).2.2
            = Except.ok (L[i]) := by
          simpa only [hF, caseTask] using htask i hi
        have h3 := optimize_one_case_ok _ _ _ _ _ _ h2
        simpa only [nthTask, ← hts] using h3
      have hg : ∀ i, (hi : i < L.length) →
          L[i] = [(L.getD i []).headD ((0 : Nat), (default : CaseRow))] := by
        intro i hi
        obtain ⟨out, -, hrow⟩ := hsolve i hi
        rw [List.getD_eq_getElem?_getD, List.getElem?_eq_getElem hi]
        simp [hrow]
      have hrows_eq : rows = (List.range L.length).map
          (fun i => (i, ((L.getD i []).headD ((0 : Nat), (default : CaseRow))).2)) := by
        rw [hrowsD, hD, flatten_singletons L _ hg, reset_index_drop_map_range]
      constructor
      · rw [hrows_eq]
        simp [hLlen]
      · intro i hi
        have hiL : i < L.length := by
          rw [hrows_eq] at hi
          simpa using hi
        obtain ⟨out, hsol, hrow⟩ := hsolve i hiL
        refine ⟨out, hsol, ?_⟩
        have hgid : (L.getD i []).headD ((0 : Nat), (default : CaseRow))
            = (out.rowIndex, mkRow true
              (nthTask self.wd_array self.ws_array tis i).1
              (nthTask self.wd_array self.ws_array tis i).2.1
              (nthTask self.wd_array self.ws_array tis i).2.2 out) := by
          rw [List.getD_eq_getElem?_getD, List.getElem?_eq_getElem hiL]
          simp [hrow]
        have h4 : rows[i]? = some (i, ((L.getD i []).headD ((0 : Nat), (default : CaseRow))).2) := by
          rw [hrows_eq, List.getElem?_map, List.getElem?_range hiL]
          rfl
        have h5 : rows[i]? = some (rows[i]) := List.getElem?_eq_getElem hi
        have h6 := Option.some.inj (h5.symm.trans h4)
        rw [h6, hgid]

/-- Conversion between `getD` access and checked indexing. -/
lemma getD_eq_of_lt {α : Type} (l : List α) (d : α) (i : Nat)
    (hi : i < l.length) : l.getD i d = l[i] := by
  rw [List.getD_eq_getElem?_getD, List.getElem?_eq_getElem hi]
  rfl

/-- Whenever the import succeeds, line 138 of the source runs
(`self.yaw_opt.calc_init_power = True`) before the pool is entered, on both
the normal and the in-pool-exception path. -/
lemma optimize_forces_flag (env : Env) (self : YawOptimizationWindRoseParallel)
    (hmpi : env.mpi4pyAvailable = true) :
    (optimize env self).final_calc_init_power = true := by
  simp only [optimize, hmpi, if_true]
  cases (npArrayFloat self.ti_array).iterate <;> rfl

/-- Whenever the import succeeds, the four banner lines are printed, on
both the normal and the in-pool-exception path. -/
lemma optimize_stdout (env : Env) (self : YawOptimizationWindRoseParallel)
    (hmpi : env.mpi4pyAvailable = true) :
    (optimize env self).stdout = bannerLines self.wd_array.length := by
  simp only [optimize, hmpi, if_true]
  cases (npArrayFloat self.ti_array).iterate <;> rfl

/-- A concrete external solver for witness runs: it succeeds on every case
and forwards its inputs into the power columns; every one-case frame it
returns carries the pandas index 7. -/
def solverW : ExternalSolver :=
  { solve := fun wd ws ti => .ok
      { power_baseline := wd
        power_baseline_weighted := ws
        turbine_power_baseline := [ti]
        power_opt := ws
        power_opt_weighted := wd
        turbine_power_opt := [ws, ti]
        yaw_angles := [wd]
        rowIndex := 7 } }

/-- Witness environment: `mpi4py` importable, two workers completing in
reverse submission order. -/
def envW : Env := { mpi4pyAvailable := true, solver := solverW, sched := [1, 0] }

/-- Witness object: the spec's two-condition example, with the baseline
flag initially off and verbosity off. -/
def selfW : YawOptimizationWindRoseParallel :=
  { calc_init_power := false
    wd_array := [270, 280]
    ws_array := [8, 9]
    ti_array := some [5, 6]
    verbose := false }

/-- The table `optimize` returns on `envW`/`selfW`. -/
def rowsW : DFrame :=
  [(0, { ws := 8, wd := 270, ti := some 5
         power_baseline := some 270, power_baseline_weighted := some 8
         turbine_power_baseline := some [5]
         power_opt := 8, power_opt_weighted := 270
         turbine_power_opt := [8, 5], yaw_angles := [270] }),
   (1, { ws := 9, wd := 280, ti := some 6
         power_baseline := some 280, power_baseline_weighted := some 9
         turbine_power_baseline := some [6]
         power_opt := 9, power_opt_weighted := 280
         turbine_power_opt := [9, 6], yaw_angles := [280] })]

/-- A solver that raises on the case whose wind direction is 3 and
succeeds elsewhere: the spec's single-case-failure scenario. -/
def solverFail : ExternalSolver :=
  { solve := fun wd _ _ =>
      if wd = 3 then .error "boom" else .ok default }

/-- Environment for the failure scenario: five workers completing in
reverse submission order. -/
def envFail : Env :=
  { mpi4pyAvailable := true, solver := solverFail, sched := [4, 3, 2, 1, 0] }

/-- Object for the failure scenario: five conditions, where case index 3
(wind direction 3) raises inside the solver. -/
def selfFail : YawOptimizationWindRoseParallel :=
  { calc_init_power := false
    wd_array := [0, 1, 2, 3, 4]
    ws_array := [8, 8, 8, 8, 8]
    ti_array := some [1, 1, 1, 1, 1]
    verbose := true }

/-- Environment whose worker-pool runtime is missing. -/
def envNoMpi : Env := { mpi4pyAvailable := false, solver := solverW, sched := [] }

/-- Claim C1 (code bug): constructed with `ti_array = None`, `optimize()` is
documented, in its own docstring and the spec, to return a table without a
turbulence-intensity column; instead line 147 evaluates
`np.array(None, dtype=float)`, the 0-dimensional `array(nan)`, and
`executor.map` raises `TypeError: iteration over a 0-d array` inside the
pool, so no table is produced at the spec's example input
wd = [270, 280], ws = [8, 9]. -/
theorem tiNone_optimize_raises_typeError :
    (optimize envW { selfW with ti_array := none }).result
      = .error (.typeError "iteration over a 0-d array") := by decide

/-- Claim C2: for a table returned by `optimize()` over equal-length wd/ws
arrays with a TI array present, under any worker completion order that
completes every task, the i-th row's ws, wd and ti fields equal the i-th
entries of the input arrays. -/
theorem optimize_row_order_matches_input (env : Env)
    (self : YawOptimizationWindRoseParallel) (tis : List Rat) (rows : DFrame)
    (i : Nat)
    (hmpi : env.mpi4pyAvailable = true)
    (hti : self.ti_array = some tis)
    (hws : self.ws_array.length = self.wd_array.length)
    (htis : tis.length = self.wd_array.length)
    (hcov : ∀ j, j < self.wd_array.length → j ∈ env.sched)
    (hok : (optimize env self).result = .ok rows)
    (hi : i < rows.length) :
    (rows.getD i ((0 : Nat), (default : CaseRow))).2.ws = self.ws_array.getD i 0 ∧
    (rows.getD i ((0 : Nat), (default : CaseRow))).2.wd = self.wd_array.getD i 0 ∧
    (rows.getD i ((0 : Nat), (default : CaseRow))).2.ti = some (tis.getD i 0) := by
  have hlen : (taskInputs self.wd_array self.ws_array tis).length
      = self.wd_array.length := taskInputs_length _ _ _ hws htis
  have hcov2 : ∀ j, j < (taskInputs self.wd_array self.ws_array tis).length →
      j ∈ env.sched := by
    rw [hlen]
    exact hcov
  obtain ⟨hrl, hrow⟩ := optimize_ok_rows env self tis rows hmpi hti hcov2 hok
  obtain ⟨out, hsol, heq⟩ := hrow i hi
  have hiw : i < self.wd_array.length := by
    rw [← hlen, ← hrl]
    exact hi
  rw [getD_eq_of_lt _ _ _ hi, heq, nthTask_eq _ _ _ _ hws htis hiw]
  simp [mkRow]

/-- Witness for C2: with the two workers completing in reverse submission
order, row 0 still carries ws = 8, wd = 270, ti = 5. -/
theorem optimize_row_order_matches_input_witness :
    ((optimize envW selfW).result = .ok rowsW) ∧
    (rowsW.getD 0 ((0 : Nat), (default : CaseRow))).2.ws = selfW.ws_array.getD 0 0 ∧
    (rowsW.getD 0 ((0 : Nat), (default : CaseRow))).2.wd = selfW.wd_array.getD 0 0 ∧
    (rowsW.getD 0 ((0 : Nat), (default : CaseRow))).2.ti = some ([(5 : Rat), 6].getD 0 0) :=
  ⟨by decide,
   optimize_row_order_matches_input envW selfW [5, 6] rowsW 0 (by decide)
     (by decide) (by decide) (by decide) (by decide) (by decide) (by decide)⟩

/-- Claim C3: a table returned by `optimize()` over equal-length input
arrays of size N has exactly N rows. -/
theorem optimize_row_count_eq_input_length (env : Env)
    (self : YawOptimizationWindRoseParallel) (tis : List Rat) (rows : DFrame)
    (hmpi : env.mpi4pyAvailable = true)
    (hti : self.ti_array = some tis)
    (hws : self.ws_array.length = self.wd_array.length)
    (htis : tis.length = self.wd_array.length)
    (hcov : ∀ j, j < self.wd_array.length → j ∈ env.sched)
    (hok : (optimize env self).result = .ok rows) :
    rows.length = self.wd_array.length := by
  have hlen : (taskInputs self.wd_array self.ws_array tis).length
      = self.wd_array.length := taskInputs_length _ _ _ hws htis
  have hcov2 : ∀ j, j < (taskInputs self.wd_array self.ws_array tis).length →
      j ∈ env.sched := by
    rw [hlen]
    exact hcov
  obtain ⟨hrl, -⟩ := optimize_ok_rows env self tis rows hmpi hti hcov2 hok
  rw [hrl, hlen]

/-- Witness for C3: two conditions in, two rows out. -/
theorem optimize_row_count_eq_input_length_witness :
    ((optimize envW selfW).result = .ok rowsW) ∧
    rowsW.length = selfW.wd_array.length :=
  ⟨by decide,
   optimize_row_count_eq_input_length envW selfW [5, 6] rowsW (by decide)
     (by decide) (by decide) (by decide) (by decide) (by decide)⟩

/-- Claim C4: when `mpi4py.futures` cannot be imported, `optimize()` raises
`ImportError` with the remediation message and dispatches zero per-case
solver calls. -/
theorem optimize_importError_before_dispatch (env : Env)
    (self : YawOptimizationWindRoseParallel)
    (h : env.mpi4pyAvailable = false) :
    (optimize env self).result = .error (.importError mpiErrMsg) ∧
    (optimize env self).solverCalls = 0 := by
  simp [optimize, h]

/-- Witness for C4: a run without the runtime raises before any dispatch. -/
theorem optimize_importError_before_dispatch_witness :
    (envNoMpi.mpi4pyAvailable = false) ∧
    ((optimize envNoMpi selfW).result = .error (.importError mpiErrMsg) ∧
      (optimize envNoMpi selfW).solverCalls = 0) :=
  ⟨rfl, optimize_importError_before_dispatch envNoMpi selfW rfl⟩

/-- Claim C5: if the first failing case j raises `msg` inside a worker and
every earlier case succeeds, `optimize()` propagates that exception and no
table is returned. -/
theorem optimize_worker_error_propagates (env : Env)
    (self : YawOptimizationWindRoseParallel) (tis : List Rat) (j : Nat)
    (msg : String)
    (hmpi : env.mpi4pyAvailable = true)
    (hti : self.ti_array = some tis)
    (hcov : ∀ k, k < (taskInputs self.wd_array self.ws_array tis).length →
      k ∈ env.sched)
    (hj : j < (taskInputs self.wd_array self.ws_array tis).length)
    (hfail : env.solver.solve (nthTask self.wd_array self.ws_array tis j).1
      (nthTask self.wd_array self.ws_array tis j).2.1
      (nthTask self.wd_array self.ws_array tis j).2.2 = .error msg)
    (hpre : ∀ i, i < j →
      (env.solver.solve (nthTask self.wd_array self.ws_array tis i).1
        (nthTask self.wd_array self.ws_array tis i).2.1
        (nthTask self.wd_array self.ws_array tis i).2.2).isOk = true) :
    (optimize env self).result = .error (.workerError msg) := by
  simp only [optimize, hmpi, hti, npArrayFloat, NpFloatArr.iterate, if_true]
  set ts := taskInputs self.wd_array self.ws_array tis with hts
  set F := caseTask env.solver true ts with hF
  set l := (List.range ts.length).map F with hl
  have hmap : (List.range ts.length).map (fun k => some (F k)) = l.map some := by
    rw [hl, List.map_map]
    rfl
  rw [scatter_eq_map _ _ _ hcov, hmap, collectLoop_map_some]
  have hFj : F j = .error (.workerError msg) := by
    have hfail2 : env.solver.solve (ts.getD j (0, 0, 0)).1
        (ts.getD j (0, 0, 0)).2.1 (ts.getD j (0, 0, 0)).2.2 = .error msg := by
      simpa only [nthTask, ← hts] using hfail
    simp only [hF, caseTask, optimize_one_case, hfail2]
  have hseq : seqCollect l = .error (.workerError msg) := by
    apply seqCollect_first_error l j
    · rw [hl, List.getElem?_map, List.getElem?_range hj, Option.map_some', hFj]
    · intro i hij
      have hiN : i < ts.length := Nat.lt_trans hij hj
      have hIsOk := hpre i hij
      have hnth : nthTask self.wd_array self.ws_array tis i
          = ts.getD i (0, 0, 0) := by
        rw [nthTask, ← hts]
      rw [hnth] at hIsOk
      cases hslv : env.solver.solve (ts.getD i (0, 0, 0)).1
          (ts.getD i (0, 0, 0)).2.1 (ts.getD i (0, 0, 0)).2.2 with
      | error m =>
          rw [hslv] at hIsOk
          exact Bool.noConfusion hIsOk
      | ok out =>
          refine ⟨[(out.rowIndex, mkRow true (ts.getD i (0, 0, 0)).1
            (ts.getD i (0, 0, 0)).2.1 (ts.getD i (0, 0, 0)).2.2 out)], ?_⟩
          rw [hl, List.getElem?_map, List.getElem?_range hiN, Option.map_some']
          simp only [hF, caseTask, optimize_one_case, hslv]
  rw [hseq]
  rfl

/-- Witness for C5: five conditions with case index 3 raising: the run
propagates the worker exception. -/
theorem optimize_worker_error_propagates_witness :
    (optimize envFail selfFail).result = .error (.workerError "boom") :=
  optimize_worker_error_propagates envFail selfFail [1, 1, 1, 1, 1] 3 "boom"
    (by decide) (by decide) (by decide) (by decide) (by decide) (by decide)

/-- Claim C6: even when the wrapped optimizer's baseline flag starts False,
a run that returns a table has forced the flag True and every returned row
has all three baseline power columns non-null. -/
theorem optimize_forces_baseline_columns (env : Env)
    (self : YawOptimizationWindRoseParallel) (tis : List Rat) (rows : DFrame)
    (hmpi : env.mpi4pyAvailable = true)
    (hti : self.ti_array = some tis)
    (hcov : ∀ j, j < (taskInputs self.wd_array self.ws_array tis).length →
      j ∈ env.sched)
    (hflag : self.calc_init_power = false)
    (hok : (optimize env self).result = .ok rows) :
    (optimize env self).final_calc_init_power = true ∧
    ∀ p ∈ rows, p.2.power_baseline.isSome = true ∧
      p.2.power_baseline_weighted.isSome = true ∧
      p.2.turbine_power_baseline.isSome = true := by
  refine ⟨optimize_forces_flag env self hmpi, ?_⟩
  intro p hp
  obtain ⟨-, hrow⟩ := optimize_ok_rows env self tis rows hmpi hti hcov hok
  obtain ⟨i, hi, heq⟩ := List.mem_iff_getElem.mp hp
  obtain ⟨out, -, heq2⟩ := hrow i hi
  rw [← heq, heq2]
  simp [mkRow]

/-- Witness for C6: the baseline flag of `selfW` starts False and every
row of the returned table carries non-null baseline columns. -/
theorem optimize_forces_baseline_columns_witness :
    ((optimize envW selfW).result = .ok rowsW) ∧
    ((optimize envW selfW).final_calc_init_power = true ∧
      ∀ p ∈ rowsW, p.2.power_baseline.isSome = true ∧
        p.2.power_baseline_weighted.isSome = true ∧
        p.2.turbine_power_baseline.isSome = true) :=
  ⟨by decide,
   optimize_forces_baseline_columns envW selfW [5, 6] rowsW (by decide)
     (by decide) (by decide) (by decide) (by decide)⟩

/-- Claim C7: the indices of a returned table are reset to 0..N-1,
regardless of the pandas indices the per-case frames carried. -/
theorem optimize_reset_index_contiguous (env : Env)
    (self : YawOptimizationWindRoseParallel) (tis : List Rat) (rows : DFrame)
    (hmpi : env.mpi4pyAvailable = true)
    (hti : self.ti_array = some tis)
    (hcov : ∀ j, j < (taskInputs self.wd_array self.ws_array tis).length →
      j ∈ env.sched)
    (hok : (optimize env self).result = .ok rows) :
    rows.map Prod.fst = List.range rows.length := by
  obtain ⟨-, hrow⟩ := optimize_ok_rows env self tis rows hmpi hti hcov hok
  apply List.ext_getElem?
  intro k
  rw [List.getElem?_map]
  by_cases hk : k < rows.length
  · obtain ⟨out, -, heq⟩ := hrow k hk
    rw [List.getElem?_eq_getElem hk, List.getElem?_range hk, heq]
    rfl
  · rw [List.getElem?_eq_none (Nat.le_of_not_lt hk),
      List.getElem?_eq_none (by simpa [List.length_range] using Nat.le_of_not_lt hk)]
    rfl

/-- Witness for C7: the one-case frames carried pandas index 7, yet the
returned indices are 0, 1. -/
theorem optimize_reset_index_contiguous_witness :
    ((optimize envW selfW).result = .ok rowsW) ∧
    rowsW.map Prod.fst = List.range rowsW.length :=
  ⟨by decide,
   optimize_reset_index_contiguous envW selfW [5, 6] rowsW (by decide)
     (by decide) (by decide) (by decide)⟩

/-- Claim C8: whenever the worker pool is acquired, the `with` statement
releases it before `optimize()` returns or re-raises, on the normal path
and on the in-pool exception path alike. -/
theorem optimize_pool_released_on_exit (env : Env)
    (self : YawOptimizationWindRoseParallel)
    (h : (optimize env self).poolAcquired = true) :
    (optimize env self).poolReleased = true := by
  cases hb : env.mpi4pyAvailable with
  | false => simp [optimize, hb] at h
  | true =>
      simp only [optimize, hb, if_true]
      cases (npArrayFloat self.ti_array).iterate <;> rfl

/-- Witness for C8: on the failing five-condition run, the pool is
acquired and then released despite the worker exception. -/
theorem optimize_pool_released_on_exit_witness :
    ((optimize envFail selfFail).poolAcquired = true) ∧
    ((optimize envFail selfFail).poolReleased = true) :=
  ⟨by decide, optimize_pool_released_on_exit envFail selfFail (by decide)⟩

/-- Claim C9: once the import succeeds, the banner and condition count are
printed whatever the verbosity flag is: `optimize()` never consults
`self.verbose`. -/
theorem optimize_prints_banner_regardless_of_verbose (env : Env)
    (self : YawOptimizationWindRoseParallel) (v : Bool)
    (h : env.mpi4pyAvailable = true) :
    (optimize env { self with verbose := v }).stdout
      = bannerLines self.wd_array.length :=
  optimize_stdout env { self with verbose := v } h

/-- Witness for C9: a run constructed with `verbose = False` still prints
the banner with the condition count 2. -/
theorem optimize_prints_banner_regardless_of_verbose_witness :
    (envW.mpi4pyAvailable = true) ∧
    (optimize envW { selfW with verbose := false }).stdout
      = bannerLines selfW.wd_array.length :=
  ⟨rfl, optimize_prints_banner_regardless_of_verbose envW selfW false rfl⟩

/-- Claim C10: the forced `calc_init_power = True` mutation is not rolled
back on the error exit: after a run that raises past the import, the
wrapped optimizer's flag is still True even though it started False. -/
theorem optimize_flag_stays_true_after_error (env : Env)
    (self : YawOptimizationWindRoseParallel) (e : PyError)
    (hmpi : env.mpi4pyAvailable = true)
    (hflag : self.calc_init_power = false)
    (herr : (optimize env self).result = .error e) :
    (optimize env self).final_calc_init_power = true :=
  optimize_forces_flag env self hmpi

/-- Witness for C10: the failing five-condition run raises, and the flag
that started False is left True. -/
theorem optimize_flag_stays_true_after_error_witness :
    ((optimize envFail selfFail).result = .error (.workerError "boom")) ∧
    (optimize envFail selfFail).final_calc_init_power = true :=
  ⟨by decide,
   optimize_flag_stays_true_after_error envFail selfFail
     (.workerError "boom") (by decide) (by decide) (by decide)⟩

end WindRoseMpi
